import Mathlib

/-!
Verification of the Llama_Auto_Expense expense-categorization pipeline.

The development shallowly embeds the two pipeline variants of the repository:
`llama_expense.py` (the continue-on-error variant, whose record classifier
absorbs every failure) and `llama_expense-dev.py` (the variant whose helpers
raise and whose batch loop catches per row).  Python strings are modelled as
`List Char`, Python exceptions as `Except`, and the JSON values produced by
`json.loads` as the inductive type `JsonValue`.
-/

set_option autoImplicit false

/-- Python strings are modelled as lists of characters. -/
abbrev PyStr := List Char

/-- Whitespace, as stripped by Python `str.strip` (ASCII subset; the unicode
whitespace stripped by Python and the slightly smaller inter-token whitespace
set of `json.loads` differ only on characters that never occur in this
development and are modelled with this single predicate). -/
def is_space_char (c : Char) : Bool :=
  c == ' ' || c == '\t' || c == '\n' || c == '\r' || c == '\x0b' || c == '\x0c'

/-- Remove leading whitespace (the left half of Python `str.strip`). -/
def lstrip : PyStr → PyStr
  | [] => []
  | c :: s => if is_space_char c then lstrip s else c :: s

/-- Remove trailing whitespace (the right half of Python `str.strip`). -/
def rstrip (s : PyStr) : PyStr :=
  (lstrip s.reverse).reverse

/-- Python `str.strip`: remove leading and trailing whitespace. -/
def pystrip (s : PyStr) : PyStr :=
  lstrip (rstrip s)

/-- Python `str.startswith`, with the pattern as first argument. -/
def startswith : PyStr → PyStr → Bool
  | [], _ => true
  | _ :: _, [] => false
  | p :: ps, c :: cs => p == c && startswith ps cs

/-- Python slicing `s[:-n]`: everything but the last `n` characters
(empty when `n ≥ length`). -/
def take_all_but_last (n : Nat) (s : PyStr) : PyStr :=
  s.take (s.length - n)

/-- JSON values as produced by Python `json.loads`.  Objects are modelled as
association lists in encounter order (duplicate keys may occur; lookups take
the last binding, matching `dict` construction by `json.loads`).  A numeral
is kept as its exact decimal value `mantissa·10^exp10`; `json.loads` would
return a Python `int` or `float`, a distinction that affects none of the
modelled behaviour (the rounding of extreme floats is outside the model). -/
inductive JsonValue where
  | null
  | bool (b : Bool)
  | num (mantissa : Int) (exp10 : Int)
  | str (s : PyStr)
  | arr (elems : List JsonValue)
  | obj (kvs : List (PyStr × JsonValue))

/-- Lookup in a `json.loads` object, as Python `dict.get(key, default)`:
the last binding of a duplicated key wins, absent keys give the default. -/
def dict_get (kvs : List (PyStr × JsonValue)) (k : PyStr) (d : JsonValue) : JsonValue :=
  match kvs.reverse.find? (fun p => p.1 == k) with
  | some p => p.2
  | none => d

/-- Python truthiness of a value returned by `json.loads`: `False`, zero, the
empty string, the empty list and the empty dict are falsy, everything else
truthy (`None`, the other falsy case of `if result:`, is the `Option.none`
branch at the call site).  A numeral is zero exactly when its mantissa is. -/
def py_truthy : JsonValue → Bool
  | .null => false
  | .bool b => b
  | .num m _ => m != 0
  | .str s => !s.isEmpty
  | .arr es => !es.isEmpty
  | .obj kvs => !kvs.isEmpty

/-- One JSON escape character following a backslash (the `\uXXXX` form is
outside the modelled fragment and is treated as a decode failure). -/
def json_escape_char : Char → Option Char
  | '\x22' => some '\x22'
  | '\\' => some '\\'
  | '/' => some '/'
  | 'b' => some '\x08'
  | 'f' => some '\x0c'
  | 'n' => some '\n'
  | 'r' => some '\r'
  | 't' => some '\t'
  | _ => none

/-- Parse the remainder of a JSON string literal, the opening quote already
consumed: the decoded content and whatever follows the closing quote. -/
def parse_string_rest : PyStr → Option (PyStr × PyStr)
  | [] => none
  | '\x22' :: r => some ([], r)
  | '\\' :: c :: r =>
    match json_escape_char c with
    | some c' =>
      match parse_string_rest r with
      | some (s, rest) => some (c' :: s, rest)
      | none => none
    | none => none
  | ['\\'] => none
  | c :: r =>
    match parse_string_rest r with
    | some (s, rest) => some (c :: s, rest)
    | none => none

/-- Longest prefix of decimal digits, with the remainder. -/
def take_digits : PyStr → (PyStr × PyStr)
  | [] => ([], [])
  | c :: r =>
    if c.isDigit then
      let (d, rest) := take_digits r
      (c :: d, rest)
    else ([], c :: r)

/-- Numeric value of a digit string. -/
def digits_to_nat (s : PyStr) : Nat :=
  s.foldl (fun acc c => acc * 10 + (c.toNat - 48)) 0

/-- Optional exponent part of a JSON numeral (defaults to `0`). -/
def parse_exp : PyStr → Option (Int × PyStr)
  | 'e' :: r | 'E' :: r =>
    match r with
    | '+' :: r2 =>
      match take_digits r2 with
      | ([], _) => none
      | (ds, rest) => some ((digits_to_nat ds : Int), rest)
    | '-' :: r2 =>
      match take_digits r2 with
      | ([], _) => none
      | (ds, rest) => some (-(digits_to_nat ds : Int), rest)
    | _ =>
      match take_digits r with
      | ([], _) => none
      | (ds, rest) => some ((digits_to_nat ds : Int), rest)
  | s => some (0, s)

/-- Unsigned JSON numeral: integer part (no leading zeros), optional fraction,
optional exponent.  Returns the decimal mantissa and power-of-ten exponent. -/
def parse_unsigned_number (s : PyStr) : Option ((Nat × Int) × PyStr) :=
  match take_digits s with
  | ([], _) => none
  | (ds, s2) =>
    if 1 < ds.length && ds.head? == some '0' then none
    else
      match s2 with
      | '.' :: r =>
        match take_digits r with
        | ([], _) => none
        | (fds, s3) =>
          match parse_exp s3 with
          | some (e, s4) => some ((digits_to_nat (ds ++ fds), e - (fds.length : Int)), s4)
          | none => none
      | _ =>
        match parse_exp s2 with
        | some (e, s3) => some ((digits_to_nat ds, e), s3)
        | none => none

/-- Signed JSON numeral, as a `JsonValue.num`. -/
def parse_number (s : PyStr) : Option (JsonValue × PyStr) :=
  match s with
  | '-' :: r =>
    match parse_unsigned_number r with
    | some ((m, e), rest) => some (.num (-(m : Int)) e, rest)
    | none => none
  | _ =>
    match parse_unsigned_number s with
    | some ((m, e), rest) => some (.num (m : Int) e, rest)
    | none => none

mutual

/-- Recursive-descent JSON value parser (fuel-indexed; the fuel used at top
level always suffices, see `json_loads`).  Leading whitespace is skipped, and
the remainder after the value is returned. -/
def parse_value : Nat → PyStr → Option (JsonValue × PyStr)
  | 0, _ => none
  | fuel + 1, s =>
    match lstrip s with
    | '\x7b' :: r =>
      match lstrip r with
      | '\x7d' :: r2 => some (.obj [], r2)
      | r2 =>
        match parse_members fuel r2 with
        | some (kvs, rest) => some (.obj kvs, rest)
        | none => none
    | '\x5b' :: r =>
      match lstrip r with
      | '\x5d' :: r2 => some (.arr [], r2)
      | r2 =>
        match parse_elements fuel r2 with
        | some (es, rest) => some (.arr es, rest)
        | none => none
    | '\x22' :: r =>
      match parse_string_rest r with
      | some (cs, rest) => some (.str cs, rest)
      | none => none
    | 't' :: 'r' :: 'u' :: 'e' :: r => some (.bool true, r)
    | 'f' :: 'a' :: 'l' :: 's' :: 'e' :: r => some (.bool false, r)
    | 'n' :: 'u' :: 'l' :: 'l' :: r => some (.null, r)
    | s1 => parse_number s1

/-- The members of a JSON object, the opening brace and leading whitespace
already consumed; stops after the closing brace. -/
def parse_members : Nat → PyStr → Option (List (PyStr × JsonValue) × PyStr)
  | 0, _ => none
  | fuel + 1, s =>
    match s with
    | '\x22' :: r =>
      match parse_string_rest r with
      | some (k, r1) =>
        match lstrip r1 with
        | ':' :: r2 =>
          match parse_value fuel r2 with
          | some (v, r3) =>
            match lstrip r3 with
            | ',' :: r4 =>
              match parse_members fuel (lstrip r4) with
              | some (kvs, rest) => some ((k, v) :: kvs, rest)
              | none => none
            | '\x7d' :: r4 => some ([(k, v)], r4)
            | _ => none
          | none => none
        | _ => none
      | none => none
    | _ => none

/-- The elements of a JSON array, the opening bracket already consumed;
stops after the closing bracket. -/
def parse_elements : Nat → PyStr → Option (List JsonValue × PyStr)
  | 0, _ => none
  | fuel + 1, s =>
    match parse_value fuel s with
    | some (v, r1) =>
      match lstrip r1 with
      | ',' :: r2 =>
        match parse_elements fuel r2 with
        | some (es, rest) => some (v :: es, rest)
        | none => none
      | '\x5d' :: r2 => some ([v], r2)
      | _ => none
    | none => none

end

/-- Model of Python `json.loads`: decode one JSON value, tolerating
surrounding whitespace and rejecting trailing garbage.  Surrounding-whitespace
tolerance is realised by stripping first, which is extensionally the same.
Outside the modelled fragment (documented above): `\uXXXX` escapes,
the non-standard `NaN`/`Infinity` extensions, and float rounding (numerals
keep their exact decimal value here). -/
def json_loads (s : PyStr) : Option JsonValue :=
  let t := pystrip s
  match parse_value (t.length + 2) t with
  | some (v, rest) => if rest.all is_space_char then some v else none
  | none => none

/-! ### Table cells and dates -/

/-- A value held by one cell of a row obtained from `pandas.read_csv` via
`DataFrame.iterrows` (or substituted by `Series.get`'s default): a string, the
float-NaN placed by pandas in empty cells, a `pd.Timestamp`, or a number.
Fractional numbers are modelled at integer granularity; no modelled behaviour
inspects a numeric cell's magnitude. -/
inductive Cell where
  | str (s : PyStr)
  | nan
  | timestamp (y m d : Nat)
  | num (n : Int)
deriving DecidableEq

/-- Zero-padding of a numeral, as `strftime` field formatting. -/
def pad_left (w : Nat) (s : PyStr) : PyStr :=
  List.replicate (w - s.length) '0' ++ s

/-- The `strftime("%Y-%m-%d")` rendering of a date. -/
def fmt_date (y m d : Nat) : PyStr :=
  pad_left 4 (Nat.toDigits 10 y) ++ "-".toList ++ pad_left 2 (Nat.toDigits 10 m) ++
    "-".toList ++ pad_left 2 (Nat.toDigits 10 d)

/-- Decimal rendering of an integer, as Python `str`. -/
def int_repr (n : Int) : PyStr :=
  if n < 0 then '-' :: Nat.toDigits 10 n.natAbs else Nat.toDigits 10 n.natAbs

/-- Python `str()` of a cell value (`str(nan)` is `"nan"`; `str` of a
`pd.Timestamp` appends the midnight time component). -/
def py_str_cell : Cell → PyStr
  | .str s => s
  | .nan => "nan".toList
  | .num n => int_repr n
  | .timestamp y m d => fmt_date y m d ++ " 00:00:00".toList

/-- Whether a string is already a canonical `YYYY-MM-DD` date. -/
def is_iso_date : PyStr → Bool
  | [y1, y2, y3, y4, '-', m1, m2, '-', d1, d2] =>
    y1.isDigit && y2.isDigit && y3.isDigit && y4.isDigit && m1.isDigit && m2.isDigit &&
      d1.isDigit && d2.isDigit
  | _ => false

/-- Model of `pandas.to_datetime(v).strftime("%Y-%m-%d")` for a non-`Timestamp`
cell, `none` standing for the exception pandas raises.  The modelled fragment:
a string parses exactly when it is already a canonical `YYYY-MM-DD` date (the
flexible formats pandas additionally accepts are conservatively modelled as
failures; on text such as `"N/A"` or `"not-a-date"` pandas raises, as here); a
float NaN becomes `NaT`, whose `strftime` raises; pandas would interpret an
integer as an epoch offset, a case that never occurs in this data model and is
conservatively a failure. -/
def to_datetime_strftime : Cell → Option PyStr
  | .timestamp y m d => some (fmt_date y m d)
  | .str s => if is_iso_date s then some s else none
  | .nan => none
  | .num _ => none

/-! ### Shared configuration constants (identical in both variants) -/

/-- The missing-data placeholder compared against `Product Name`, and the
`row.get` default for the absent columns. -/
def nA : PyStr := "N/A".toList

def DEFAULT_CATEGORY : PyStr := "Unknown".toList

def DEFAULT_DEDUCTIBLE : Bool := false

def ERROR_CATEGORY : PyStr := "Error".toList

def DEFAULT_JUSTIFICATION : PyStr := "No justification provided by LLM".toList

/-! ### Raw model responses and fence stripping -/

/-- A `RawModelResponse` as received from the Langchain chain: either a Python
string, or a structured (non-string) value already parsed upstream by
`JsonOutputParser`.  String-valued JSON results arrive as `pstr`. -/
inductive RawResponse where
  | pstr (s : PyStr)
  | pjson (j : JsonValue)

/-- The leading marker of a labeled fence, `"```json"`. -/
def fence_json_tag : PyStr := "```json".toList

/-- The leading marker of an unlabeled fence, `"```"`. -/
def fence_plain : PyStr := "```".toList

/-- The markdown-fence unwrapping shared by `safe_json_loads` and
`direct_json_loads`: mirrors the slicing
`json_string.strip()[7:-3].strip()` (resp. `[3:-3]`), which removes the final
three characters of the stripped text unconditionally. -/
def fence_strip (s : PyStr) : PyStr :=
  if startswith fence_json_tag (pystrip s) then
    pystrip (take_all_but_last 3 ((pystrip s).drop 7))
  else if startswith fence_plain (pystrip s) then
    pystrip (take_all_but_last 3 ((pystrip s).drop 3))
  else s

/-- Abbreviation of `str` of Python's `json.JSONDecodeError` (the exact
message text is never compared by the pipeline). -/
def JSON_DECODE_ERROR_MSG : PyStr := "Expecting value".toList

/-- Abbreviation of `str` of the `TypeError` raised by `json.loads` on a
non-string argument. -/
def JSON_TYPE_ERROR_MSG : PyStr := "the JSON object must be str, bytes or bytearray".toList

/-- Abbreviation of `str` of the `AttributeError` raised by `result.get` when
the decoded value is not a dict. -/
def ATTRIBUTE_ERROR_MSG : PyStr := "object has no attribute get".toList

/-! ### Rows, prompt inputs, results -/

/-- One input `ExpenseRecord` row, as accessed through `row.get(column,
default)`: `none` models an absent column. -/
structure Row where
  product_name : Option Cell
  unit_price : Option Cell
  quantity : Option Cell
  order_date : Option Cell
deriving DecidableEq

/-- The four-field mapping passed to `processing_chain.invoke`; the fixed
prompt template is rendered from exactly these fields inside the chain. -/
structure PromptInput where
  product_name : Cell
  unit_price : Cell
  quantity : Cell
  order_date : PyStr
deriving DecidableEq

/-- One `ClassificationResult` triple `(category, is_deductible,
justification)`; each component is whatever Python value `.get` produced,
so all three are `JsonValue`s. -/
abbrev Classification := JsonValue × JsonValue × JsonValue

/-- The inference side of the Langchain chain (prompt rendering, LLM call and
`JsonOutputParser`), the external collaborator: it maps the invoked input to a
raw response, or to the exception it raises (`Except.error`). -/
abbrev Chain := PromptInput → Except PyStr RawResponse

/-- The three accumulated output columns, as attached to the dataframe and
written out. -/
structure BatchOutput where
  categories : List JsonValue
  deductibility : List JsonValue
  justifications : List JsonValue

/-! ### The continue-on-error variant, `llama_expense.py` -/

namespace LlamaExpense

/-- `parse_date` of `llama_expense.py`: a `pd.Timestamp` is formatted
directly; anything else goes through `pd.to_datetime(...).strftime(...)`, and
any failure falls back to `str(date_value)`. -/
def parse_date (date_value : Cell) : PyStr :=
  match date_value with
  | .timestamp y m d => fmt_date y m d
  | c =>
    match to_datetime_strftime c with
    | some r => r
    | none => py_str_cell c

/-- `safe_json_loads` of `llama_expense.py`: fence-strip a string then decode
it, returning `None` on any failure; a dict produced upstream is returned
unchanged; `json.loads` of any other non-string raises `TypeError`, caught by
the blanket `except` and turned into `None`. -/
def safe_json_loads : RawResponse → Option JsonValue
  | .pstr s => json_loads (fence_strip s)
  | .pjson j =>
    match j with
    | .obj kvs => some (.obj kvs)
    | _ => none

/-- `process_single_expense` of `llama_expense.py`.  The second component
records the argument of the `processing_chain.invoke` call when one was made
(`none`: the inference service was never contacted).  The `index`/`total_rows`
parameters of the source feed logging only and are omitted. -/
def process_single_expense (chain : Chain) (row : Row) : Classification × Option PromptInput :=
  let product_name := row.product_name.getD (.str nA)
  let unit_price := row.unit_price.getD (.num 0)
  let quantity := row.quantity.getD (.num 1)
  let order_date := parse_date (row.order_date.getD (.str nA))
  if product_name == .str nA then
    ((.str DEFAULT_CATEGORY, .bool DEFAULT_DEDUCTIBLE, .str "Missing product information".toList),
      none)
  else
    let inp : PromptInput := ⟨product_name, unit_price, quantity, order_date⟩
    let triple : Classification :=
      match chain inp with
      | .error e =>
        (.str ERROR_CATEGORY, .bool DEFAULT_DEDUCTIBLE, .str ("Processing error: ".toList ++ e))
      | .ok result_raw =>
        match safe_json_loads result_raw with
        | some result =>
          if py_truthy result then
            match result with
            | .obj kvs =>
              (dict_get kvs "category".toList (.str DEFAULT_CATEGORY),
                dict_get kvs "is_deductible".toList (.bool DEFAULT_DEDUCTIBLE),
                dict_get kvs "justification".toList (.str DEFAULT_JUSTIFICATION))
            | _ =>
              (.str ERROR_CATEGORY, .bool DEFAULT_DEDUCTIBLE,
                .str ("Processing error: ".toList ++ ATTRIBUTE_ERROR_MSG))
          else
            (.str ERROR_CATEGORY, .bool DEFAULT_DEDUCTIBLE,
              .str "LLM response parsing error".toList)
        | none =>
          (.str ERROR_CATEGORY, .bool DEFAULT_DEDUCTIBLE,
            .str "LLM response parsing error".toList)
    (triple, some inp)

/-- The body of this variant's batch loop: classify one row and append the
triple to the three accumulators. -/
def step (chain : Chain) (acc : BatchOutput) (row : Row) : BatchOutput :=
  let r := (process_single_expense chain row).1
  ⟨acc.categories ++ [r.1], acc.deductibility ++ [r.2.1], acc.justifications ++ [r.2.2]⟩

/-- `process_expenses` of `llama_expense.py`, acting on the in-memory table
(reading the CSV and writing the result are the thin I/O collaborators of the
spec and are outside the embedding): one classifier call per row, each triple
appended to the three accumulator lists, which become the output columns. -/
def process_expenses (chain : Chain) (rows : List Row) : BatchOutput :=
  rows.foldl (step chain) ⟨[], [], []⟩

end LlamaExpense

/-! ### The dev variant, `llama_expense-dev.py` -/

namespace LlamaExpenseDev

/-- `parse_date` of `llama_expense-dev.py`: as the other variant but with no
`try`/`except` — a parsing failure propagates (`Except.error` models the
raised exception, whose text pandas varies; it is never compared). -/
def parse_date (date_value : Cell) : Except PyStr PyStr :=
  match date_value with
  | .timestamp y m d => .ok (fmt_date y m d)
  | c =>
    match to_datetime_strftime c with
    | some r => .ok r
    | none =>
      .error ("Unknown datetime string format, unable to parse: ".toList ++ py_str_cell c)

/-- `direct_json_loads` of `llama_expense-dev.py`: as `safe_json_loads` but
raising instead of returning `None`. -/
def direct_json_loads : RawResponse → Except PyStr JsonValue
  | .pstr s =>
    match json_loads (fence_strip s) with
    | some v => .ok v
    | none => .error JSON_DECODE_ERROR_MSG
  | .pjson j =>
    match j with
    | .obj kvs => .ok (.obj kvs)
    | _ => .error JSON_TYPE_ERROR_MSG

/-- `process_single_expense` of `llama_expense-dev.py`: date parsing happens
while the row fields are extracted, before the missing-product check, and any
failure (date parsing, chain invocation, JSON decoding, `.get` on a non-dict)
propagates to the caller.  As in the other variant, the second component
records the `invoke` argument when the inference service was contacted. -/
def process_single_expense (chain : Chain) (row : Row) :
    Except PyStr Classification × Option PromptInput :=
  let product_name := row.product_name.getD (.str nA)
  let unit_price := row.unit_price.getD (.num 0)
  let quantity := row.quantity.getD (.num 1)
  match parse_date (row.order_date.getD (.str nA)) with
  | .error e => (.error e, none)
  | .ok order_date =>
    if product_name == .str nA then
      (.ok (.str DEFAULT_CATEGORY, .bool DEFAULT_DEDUCTIBLE,
        .str "Missing product information".toList), none)
    else
      let inp : PromptInput := ⟨product_name, unit_price, quantity, order_date⟩
      let res : Except PyStr Classification :=
        match chain inp with
        | .error e => .error e
        | .ok result_raw =>
          match direct_json_loads result_raw with
          | .error e => .error e
          | .ok result =>
            match result with
            | .obj kvs =>
              .ok (dict_get kvs "category".toList (.str DEFAULT_CATEGORY),
                dict_get kvs "is_deductible".toList (.bool DEFAULT_DEDUCTIBLE),
                dict_get kvs "justification".toList (.str DEFAULT_JUSTIFICATION))
            | _ => .error ATTRIBUTE_ERROR_MSG
      (res, some inp)

/-- The per-row `try`/`except` of this variant's batch loop: an exception from
the classifier is logged and replaced by the error triple, and the loop
continues with the next row. -/
def row_result (chain : Chain) (row : Row) : Classification :=
  match (process_single_expense chain row).1 with
  | .ok t => t
  | .error e =>
    (.str ERROR_CATEGORY, .bool DEFAULT_DEDUCTIBLE,
      .str ("Error during processing: ".toList ++ e))

/-- The body of this variant's batch loop: the guarded classification of one
row appended to the three accumulators. -/
def step (chain : Chain) (acc : BatchOutput) (row : Row) : BatchOutput :=
  let r := row_result chain row
  ⟨acc.categories ++ [r.1], acc.deductibility ++ [r.2.1], acc.justifications ++ [r.2.2]⟩

/-- `process_expenses` of `llama_expense-dev.py`, on the in-memory table: one
classifier call per row inside `try`/`except`, every row contributing exactly
one triple to the accumulators. -/
def process_expenses (chain : Chain) (rows : List Row) : BatchOutput :=
  rows.foldl (step chain) ⟨[], [], []⟩

end LlamaExpenseDev

/-! ### The code-fence wrappings quantified over by the spec -/

/-- A text wrapped as a labeled code block: leading fence followed by the
language tag, trailing fence. -/
def fence_labeled (t : PyStr) : PyStr :=
  "```json\n".toList ++ t ++ "\n```".toList

/-- A text wrapped as an unlabeled code block. -/
def fence_unlabeled (t : PyStr) : PyStr :=
  "```\n".toList ++ t ++ "\n```".toList

/-! ### Lemmas: stripping -/

theorem lstrip_cons_of_space {c : Char} (s : PyStr) (h : is_space_char c = true) :
    lstrip (c :: s) = lstrip s := by
  simp [lstrip, h]

theorem lstrip_cons_of_not_space {c : Char} (s : PyStr) (h : is_space_char c = false) :
    lstrip (c :: s) = c :: s := by
  simp [lstrip, h]

theorem lstrip_idem (s : PyStr) : lstrip (lstrip s) = lstrip s := by
  induction s with
  | nil => rfl
  | cons c s ih =>
    by_cases h : is_space_char c = true
    · rw [lstrip_cons_of_space s h, ih]
    · have h' := eq_false_of_ne_true h
      rw [lstrip_cons_of_not_space s h', lstrip_cons_of_not_space s h']

theorem lstrip_append_of_ne_nil {u : PyStr} (v : PyStr) (h : lstrip u ≠ []) :
    lstrip (u ++ v) = lstrip u ++ v := by
  induction u with
  | nil => exact absurd rfl h
  | cons c u ih =>
    by_cases hc : is_space_char c = true
    · rw [lstrip_cons_of_space u hc] at h
      rw [List.cons_append, lstrip_cons_of_space (u ++ v) hc, lstrip_cons_of_space u hc, ih h]
    · have hc' := eq_false_of_ne_true hc
      rw [List.cons_append, lstrip_cons_of_not_space (u ++ v) hc', lstrip_cons_of_not_space u hc',
        List.cons_append]

theorem lstrip_append_of_nil {u : PyStr} (v : PyStr) (h : lstrip u = []) :
    lstrip (u ++ v) = lstrip v := by
  induction u with
  | nil => rfl
  | cons c u ih =>
    by_cases hc : is_space_char c = true
    · rw [lstrip_cons_of_space u hc] at h
      rw [List.cons_append, lstrip_cons_of_space (u ++ v) hc, ih h]
    · have hc' := eq_false_of_ne_true hc
      rw [lstrip_cons_of_not_space u hc'] at h
      exact absurd h (by simp)

theorem rstrip_append_of_space {c : Char} (s : PyStr) (h : is_space_char c = true) :
    rstrip (s ++ [c]) = rstrip s := by
  unfold rstrip
  rw [List.reverse_append, List.reverse_singleton, List.singleton_append,
    lstrip_cons_of_space _ h]

theorem rstrip_append_of_not_space {c : Char} (s : PyStr) (h : is_space_char c = false) :
    rstrip (s ++ [c]) = s ++ [c] := by
  unfold rstrip
  rw [List.reverse_append, List.reverse_singleton, List.singleton_append,
    lstrip_cons_of_not_space _ h, List.reverse_cons, List.reverse_reverse]

theorem rstrip_cons_of_ne_nil {s : PyStr} (c : Char) (h : rstrip s ≠ []) :
    rstrip (c :: s) = c :: rstrip s := by
  unfold rstrip at *
  rw [List.reverse_cons, lstrip_append_of_ne_nil [c] (fun hn => h (by rw [hn]; rfl)),
    List.reverse_append, List.reverse_singleton, List.singleton_append]

theorem rstrip_cons_of_nil {s : PyStr} (c : Char) (h : rstrip s = []) :
    rstrip (c :: s) = rstrip [c] := by
  unfold rstrip at *
  rw [List.reverse_cons, lstrip_append_of_nil [c] (by simpa using congrArg List.reverse h)]
  rfl

theorem rstrip_idem (s : PyStr) : rstrip (rstrip s) = rstrip s := by
  unfold rstrip
  rw [List.reverse_reverse, lstrip_idem]

theorem lstrip_rstrip_comm (s : PyStr) : lstrip (rstrip s) = rstrip (lstrip s) := by
  induction s with
  | nil => rfl
  | cons c s ih =>
    by_cases hr : rstrip s = []
    · have hl : lstrip (rstrip s) = [] := by rw [hr]; rfl
      rw [rstrip_cons_of_nil c hr]
      by_cases hc : is_space_char c = true
      · have h1 : rstrip [c] = ([] : PyStr) := by
          unfold rstrip; simp [lstrip, hc]
        rw [h1, lstrip_cons_of_space s hc, ← ih, hl]
        rfl
      · have hc' := eq_false_of_ne_true hc
        have h1 : rstrip [c] = [c] := by
          unfold rstrip; simp [lstrip, hc']
        rw [h1, lstrip_cons_of_not_space s hc', rstrip_cons_of_nil c hr, h1,
          lstrip_cons_of_not_space [] hc']
    · rw [rstrip_cons_of_ne_nil c hr]
      by_cases hc : is_space_char c = true
      · rw [lstrip_cons_of_space _ hc, lstrip_cons_of_space s hc, ih]
      · have hc' := eq_false_of_ne_true hc
        rw [lstrip_cons_of_not_space _ hc', lstrip_cons_of_not_space s hc',
          rstrip_cons_of_ne_nil c hr]

theorem pystrip_idem (s : PyStr) : pystrip (pystrip s) = pystrip s := by
  unfold pystrip
  rw [lstrip_rstrip_comm (lstrip (rstrip s)), lstrip_idem, lstrip_rstrip_comm, rstrip_idem,
    ← lstrip_rstrip_comm]

theorem pystrip_cons_of_space {c : Char} (s : PyStr) (h : is_space_char c = true) :
    pystrip (c :: s) = pystrip s := by
  unfold pystrip
  by_cases hr : rstrip s = []
  · rw [rstrip_cons_of_nil c hr, hr]
    unfold rstrip
    simp [lstrip, h]
  · rw [rstrip_cons_of_ne_nil c hr, lstrip_cons_of_space _ h]

theorem pystrip_append_of_space {c : Char} (s : PyStr) (h : is_space_char c = true) :
    pystrip (s ++ [c]) = pystrip s := by
  unfold pystrip
  rw [rstrip_append_of_space s h]

theorem json_loads_congr {a b : PyStr} (h : pystrip a = pystrip b) :
    json_loads a = json_loads b := by
  unfold json_loads
  rw [h]

theorem json_loads_pystrip (s : PyStr) : json_loads (pystrip s) = json_loads s :=
  json_loads_congr (pystrip_idem s)

/-! ### Lemmas: fences and the extractor -/

theorem parse_value_backtick {s r : PyStr} (fuel : Nat) (h : lstrip s = '\x60' :: r) :
    parse_value fuel s = none := by
  match fuel with
  | 0 => rfl
  | fuel + 1 =>
    rw [parse_value, h]
    rfl

theorem startswith_head {p : Char} {ps s : PyStr} (h : startswith (p :: ps) s = true) :
    ∃ r, s = p :: r := by
  cases s with
  | nil => exact absurd h (by simp [startswith])
  | cons c cs =>
    have h1 : (p == c) = true := by
      by_contra hb
      rw [Bool.not_eq_true] at hb
      simp [startswith, hb] at h
    exact ⟨cs, by rw [eq_of_beq h1]⟩

theorem json_loads_head_not_backtick {t r : PyStr} {v : JsonValue}
    (h : json_loads t = some v) (hp : pystrip t = '\x60' :: r) : False := by
  have hl : lstrip (pystrip t) = '\x60' :: r := by
    rw [← hp]
    unfold pystrip
    rw [lstrip_idem]
  have hnone : parse_value ((pystrip t).length + 2) (pystrip t) = none :=
    parse_value_backtick _ hl
  simp only [json_loads, hnone] at h
  exact Option.noConfusion h

theorem safe_json_loads_not_fenced {t : PyStr} {v : JsonValue} (h : json_loads t = some v) :
    LlamaExpense.safe_json_loads (.pstr t) = json_loads t := by
  have h1 : startswith fence_json_tag (pystrip t) = false := by
    by_contra hb
    rw [Bool.not_eq_false] at hb
    rw [show fence_json_tag = '\x60' :: "``json".toList from rfl] at hb
    obtain ⟨r, hr⟩ := startswith_head hb
    exact json_loads_head_not_backtick h hr
  have h2 : startswith fence_plain (pystrip t) = false := by
    by_contra hb
    rw [Bool.not_eq_false] at hb
    rw [show fence_plain = '\x60' :: "``".toList from rfl] at hb
    obtain ⟨r, hr⟩ := startswith_head hb
    exact json_loads_head_not_backtick h hr
  show json_loads (fence_strip t) = json_loads t
  rw [fence_strip, h1, h2]
  simp

theorem take_all_but_last_3_tail (x : PyStr) :
    take_all_but_last 3 (x ++ "\n```".toList) = x ++ ['\n'] := by
  unfold take_all_but_last
  rw [List.length_append, show ("\n```".toList : PyStr).length = 4 from rfl,
    show x.length + 4 - 3 = x.length + 1 from by omega, List.take_append_eq_append_take,
    List.take_of_length_le (by omega), show x.length + 1 - x.length = 1 from by omega]
  rfl

theorem pystrip_fence_labeled (t : PyStr) : pystrip (fence_labeled t) = fence_labeled t := by
  have e2 : fence_labeled t = ("```json\n".toList ++ t ++ "\n``".toList) ++ ['\x60'] := by
    rw [fence_labeled, show ("\n```".toList : PyStr) = "\n``".toList ++ ['\x60'] from rfl,
      ← List.append_assoc]
  show lstrip (rstrip (fence_labeled t)) = fence_labeled t
  rw [e2, rstrip_append_of_not_space _ (by rfl), ← e2]
  exact lstrip_cons_of_not_space _ (by rfl)

theorem pystrip_fence_unlabeled (t : PyStr) : pystrip (fence_unlabeled t) = fence_unlabeled t := by
  have e2 : fence_unlabeled t = ("```\n".toList ++ t ++ "\n``".toList) ++ ['\x60'] := by
    rw [fence_unlabeled, show ("\n```".toList : PyStr) = "\n``".toList ++ ['\x60'] from rfl,
      ← List.append_assoc]
  show lstrip (rstrip (fence_unlabeled t)) = fence_unlabeled t
  rw [e2, rstrip_append_of_not_space _ (by rfl), ← e2]
  exact lstrip_cons_of_not_space _ (by rfl)

theorem fence_strip_labeled (t : PyStr) : fence_strip (fence_labeled t) = pystrip t := by
  unfold fence_strip
  rw [pystrip_fence_labeled,
    if_pos (show startswith fence_json_tag (fence_labeled t) = true from rfl)]
  rw [show (fence_labeled t).drop 7 = ('\n' :: t) ++ "\n```".toList from rfl,
    take_all_but_last_3_tail]
  show pystrip ('\n' :: (t ++ ['\n'])) = pystrip t
  rw [pystrip_cons_of_space _ (by rfl), pystrip_append_of_space _ (by rfl)]

theorem fence_strip_unlabeled (t : PyStr) : fence_strip (fence_unlabeled t) = pystrip t := by
  unfold fence_strip
  rw [pystrip_fence_unlabeled]
  rw [if_neg (by rw [show startswith fence_json_tag (fence_unlabeled t) = false from rfl]; simp),
    if_pos (show startswith fence_plain (fence_unlabeled t) = true from rfl)]
  rw [show (fence_unlabeled t).drop 3 = ('\n' :: t) ++ "\n```".toList from rfl,
    take_all_but_last_3_tail]
  show pystrip ('\n' :: (t ++ ['\n'])) = pystrip t
  rw [pystrip_cons_of_space _ (by rfl), pystrip_append_of_space _ (by rfl)]

theorem safe_json_loads_fence_labeled (t : PyStr) :
    LlamaExpense.safe_json_loads (.pstr (fence_labeled t)) = json_loads t := by
  show json_loads (fence_strip (fence_labeled t)) = json_loads t
  rw [fence_strip_labeled, json_loads_pystrip]

theorem safe_json_loads_fence_unlabeled (t : PyStr) :
    LlamaExpense.safe_json_loads (.pstr (fence_unlabeled t)) = json_loads t := by
  show json_loads (fence_strip (fence_unlabeled t)) = json_loads t
  rw [fence_strip_unlabeled, json_loads_pystrip]

/-! ### Lemmas: classifier shapes -/

theorem main_skip (chain : Chain) (row : Row)
    (h : row.product_name.getD (.str nA) = .str nA) :
    LlamaExpense.process_single_expense chain row =
      ((.str DEFAULT_CATEGORY, .bool DEFAULT_DEDUCTIBLE,
        .str "Missing product information".toList), none) := by
  simp [LlamaExpense.process_single_expense, h]

theorem main_invoked_input (chain : Chain) (row : Row) {inp : PromptInput}
    (h : (LlamaExpense.process_single_expense chain row).2 = some inp) :
    inp = ⟨row.product_name.getD (.str nA), row.unit_price.getD (.num 0),
      row.quantity.getD (.num 1), LlamaExpense.parse_date (row.order_date.getD (.str nA))⟩ := by
  unfold LlamaExpense.process_single_expense at h
  by_cases hp : (row.product_name.getD (.str nA) == Cell.str nA) = true
  · simp [hp] at h
  · rw [Bool.not_eq_true] at hp
    simp only [hp, Bool.false_eq_true, if_false, Option.some.injEq] at h
    exact h.symm

theorem main_invoked_none_iff (chain : Chain) (row : Row) :
    (LlamaExpense.process_single_expense chain row).2 = none ↔
      row.product_name.getD (.str nA) = .str nA := by
  unfold LlamaExpense.process_single_expense
  by_cases hp : (row.product_name.getD (.str nA) == Cell.str nA) = true
  · simp only [hp, if_true]
    exact iff_of_true (by simp) (eq_of_beq hp)
  · rw [Bool.not_eq_true] at hp
    simp only [hp, Bool.false_eq_true, if_false]
    exact iff_of_false (by simp) (ne_of_beq_false hp)

theorem dev_skip (chain : Chain) (row : Row) {d : PyStr}
    (h : row.product_name.getD (.str nA) = .str nA)
    (hd : LlamaExpenseDev.parse_date (row.order_date.getD (.str nA)) = .ok d) :
    LlamaExpenseDev.process_single_expense chain row =
      (.ok (.str DEFAULT_CATEGORY, .bool DEFAULT_DEDUCTIBLE,
        .str "Missing product information".toList), none) := by
  simp [LlamaExpenseDev.process_single_expense, h, hd]

theorem dev_date_error (chain : Chain) (row : Row) {e : PyStr}
    (hd : LlamaExpenseDev.parse_date (row.order_date.getD (.str nA)) = .error e) :
    LlamaExpenseDev.process_single_expense chain row = (.error e, none) := by
  simp [LlamaExpenseDev.process_single_expense, hd]

theorem dev_invoked_input (chain : Chain) (row : Row) {inp : PromptInput}
    (h : (LlamaExpenseDev.process_single_expense chain row).2 = some inp) :
    ∃ d, LlamaExpenseDev.parse_date (row.order_date.getD (.str nA)) = .ok d ∧
      inp = ⟨row.product_name.getD (.str nA), row.unit_price.getD (.num 0),
        row.quantity.getD (.num 1), d⟩ := by
  unfold LlamaExpenseDev.process_single_expense at h
  split at h
  · simp at h
  · rename_i d hd
    refine ⟨d, hd, ?_⟩
    by_cases hp : (row.product_name.getD (.str nA) == Cell.str nA) = true
    · simp [hp] at h
    · rw [Bool.not_eq_true] at hp
      simp only [hp, Bool.false_eq_true, if_false, Option.some.injEq] at h
      exact h.symm

theorem dev_invoked_none_iff (chain : Chain) (row : Row) :
    (LlamaExpenseDev.process_single_expense chain row).2 = none ↔
      (row.product_name.getD (.str nA) = .str nA ∨
        Except.isOk (LlamaExpenseDev.parse_date (row.order_date.getD (.str nA))) = false) := by
  rcases hd : LlamaExpenseDev.parse_date (row.order_date.getD (.str nA)) with e | d
  · rw [dev_date_error chain row hd]
    exact iff_of_true rfl (Or.inr rfl)
  · by_cases hp : row.product_name.getD (.str nA) = .str nA
    · rw [dev_skip chain row hp hd]
      exact iff_of_true rfl (Or.inl hp)
    · unfold LlamaExpenseDev.process_single_expense
      rw [hd]
      have hb : (row.product_name.getD (.str nA) == Cell.str nA) = false := by
        simp [hp]
      simp only [hb, Bool.false_eq_true, if_false]
      refine iff_of_false (by simp) ?_
      rintro (h | h)
      · exact hp h
      · exact Bool.noConfusion h

theorem main_chain_error (chain : Chain) (row : Row) (e : PyStr)
    (hrow : row.product_name.getD (.str nA) ≠ .str nA)
    (hchain : ∀ inp, chain inp = .error e) :
    (LlamaExpense.process_single_expense chain row).1 =
      (.str ERROR_CATEGORY, .bool DEFAULT_DEDUCTIBLE,
        .str ("Processing error: ".toList ++ e)) := by
  have hb : (row.product_name.getD (.str nA) == Cell.str nA) = false := by
    simp [hrow]
  simp [LlamaExpense.process_single_expense, hb, hchain]

theorem dev_chain_error (chain : Chain) (row : Row) (e : PyStr) {d : PyStr}
    (hrow : row.product_name.getD (.str nA) ≠ .str nA)
    (hd : LlamaExpenseDev.parse_date (row.order_date.getD (.str nA)) = .ok d)
    (hchain : ∀ inp, chain inp = .error e) :
    (LlamaExpenseDev.process_single_expense chain row).1 = .error e := by
  have hb : (row.product_name.getD (.str nA) == Cell.str nA) = false := by
    simp [hrow]
  simp [LlamaExpenseDev.process_single_expense, hb, hd, hchain]

/-! ### Lemmas: batch loops as maps -/

theorem main_foldl_eq (chain : Chain) (rows : List Row) (acc : BatchOutput) :
    rows.foldl (LlamaExpense.step chain) acc =
      ⟨acc.categories ++
          rows.map (fun row => ((LlamaExpense.process_single_expense chain row).1).1),
        acc.deductibility ++
          rows.map (fun row => ((LlamaExpense.process_single_expense chain row).1).2.1),
        acc.justifications ++
          rows.map (fun row => ((LlamaExpense.process_single_expense chain row).1).2.2)⟩ := by
  induction rows generalizing acc with
  | nil => cases acc; simp
  | cons r rs ih =>
    rw [List.foldl_cons, ih]
    cases acc
    simp [LlamaExpense.step, List.append_assoc]

/-- The continue-on-error batch produces exactly the per-row classifications,
in row order. -/
theorem main_process_expenses_eq (chain : Chain) (rows : List Row) :
    LlamaExpense.process_expenses chain rows =
      ⟨rows.map (fun row => ((LlamaExpense.process_single_expense chain row).1).1),
        rows.map (fun row => ((LlamaExpense.process_single_expense chain row).1).2.1),
        rows.map (fun row => ((LlamaExpense.process_single_expense chain row).1).2.2)⟩ := by
  rw [LlamaExpense.process_expenses, main_foldl_eq]
  simp

theorem dev_foldl_eq (chain : Chain) (rows : List Row) (acc : BatchOutput) :
    rows.foldl (LlamaExpenseDev.step chain) acc =
      ⟨acc.categories ++ rows.map (fun row => (LlamaExpenseDev.row_result chain row).1),
        acc.deductibility ++ rows.map (fun row => (LlamaExpenseDev.row_result chain row).2.1),
        acc.justifications ++
          rows.map (fun row => (LlamaExpenseDev.row_result chain row).2.2)⟩ := by
  induction rows generalizing acc with
  | nil => cases acc; simp
  | cons r rs ih =>
    rw [List.foldl_cons, ih]
    cases acc
    simp [LlamaExpenseDev.step, List.append_assoc]

/-- The dev batch also produces exactly one (guarded) result per row, in row
order. -/
theorem dev_process_expenses_eq (chain : Chain) (rows : List Row) :
    LlamaExpenseDev.process_expenses chain rows =
      ⟨rows.map (fun row => (LlamaExpenseDev.row_result chain row).1),
        rows.map (fun row => (LlamaExpenseDev.row_result chain row).2.1),
        rows.map (fun row => (LlamaExpenseDev.row_result chain row).2.2)⟩ := by
  rw [LlamaExpenseDev.process_expenses, dev_foldl_eq]
  simp

/-! ### The claims -/

/-- C2: for every input table, the batch runner produces exactly one
classification result per input row — in both variants the three appended
output columns have length equal to the input row count and entry `i` is
exactly the (guarded) classification of row `i`, so no row is dropped,
duplicated or reordered, whether its classification succeeded, was skipped,
or errored. -/
theorem claim_c2_one_result_per_row (chain : Chain) (rows : List Row) :
    ((LlamaExpense.process_expenses chain rows).categories.length = rows.length ∧
      (LlamaExpense.process_expenses chain rows).deductibility.length = rows.length ∧
      (LlamaExpense.process_expenses chain rows).justifications.length = rows.length ∧
      LlamaExpense.process_expenses chain rows =
        ⟨rows.map (fun row => ((LlamaExpense.process_single_expense chain row).1).1),
          rows.map (fun row => ((LlamaExpense.process_single_expense chain row).1).2.1),
          rows.map (fun row => ((LlamaExpense.process_single_expense chain row).1).2.2)⟩) ∧
    ((LlamaExpenseDev.process_expenses chain rows).categories.length = rows.length ∧
      (LlamaExpenseDev.process_expenses chain rows).deductibility.length = rows.length ∧
      (LlamaExpenseDev.process_expenses chain rows).justifications.length = rows.length ∧
      LlamaExpenseDev.process_expenses chain rows =
        ⟨rows.map (fun row => (LlamaExpenseDev.row_result chain row).1),
          rows.map (fun row => (LlamaExpenseDev.row_result chain row).2.1),
          rows.map (fun row => (LlamaExpenseDev.row_result chain row).2.2)⟩) := by
  refine ⟨⟨?_, ?_, ?_, main_process_expenses_eq chain rows⟩,
    ?_, ?_, ?_, dev_process_expenses_eq chain rows⟩ <;>
    simp [main_process_expenses_eq, dev_process_expenses_eq]

/-- C4: for every JSON object text, the extractor applied to the text wrapped
in a labeled code fence (leading fence plus language tag, trailing fence) or
in an unlabeled code fence yields the same key-value record as the extractor
applied to the unwrapped text. -/
theorem claim_c4_fence_transparent (t : PyStr) (kvs : List (PyStr × JsonValue))
    (h : json_loads t = some (.obj kvs)) :
    LlamaExpense.safe_json_loads (.pstr (fence_labeled t)) =
        LlamaExpense.safe_json_loads (.pstr t) ∧
      LlamaExpense.safe_json_loads (.pstr (fence_unlabeled t)) =
        LlamaExpense.safe_json_loads (.pstr t) ∧
      LlamaExpense.safe_json_loads (.pstr t) = some (.obj kvs) := by
  have hu := safe_json_loads_not_fenced h
  exact ⟨by rw [safe_json_loads_fence_labeled, hu], by rw [safe_json_loads_fence_unlabeled, hu],
    by rw [hu, h]⟩

theorem claim_c4_witness :
    json_loads "\x7b\"category\": \"Travel\"\x7d".toList =
        some (.obj [("category".toList, .str "Travel".toList)]) ∧
      (LlamaExpense.safe_json_loads
            (.pstr (fence_labeled "\x7b\"category\": \"Travel\"\x7d".toList)) =
          LlamaExpense.safe_json_loads (.pstr "\x7b\"category\": \"Travel\"\x7d".toList) ∧
        LlamaExpense.safe_json_loads
            (.pstr (fence_unlabeled "\x7b\"category\": \"Travel\"\x7d".toList)) =
          LlamaExpense.safe_json_loads (.pstr "\x7b\"category\": \"Travel\"\x7d".toList) ∧
        LlamaExpense.safe_json_loads (.pstr "\x7b\"category\": \"Travel\"\x7d".toList) =
          some (.obj [("category".toList, .str "Travel".toList)])) :=
  ⟨rfl, claim_c4_fence_transparent _ _ rfl⟩

/-- C9: whenever the stripped input begins with a fence marker, the extractor
removes the final three characters of the stripped text unconditionally (in
addition to the 7- or 3-character leading marker) before decoding — whether or
not a trailing fence is present; consequently, on a concrete input with a
leading fence but no closing fence, extraction returns `None` although the
unfenced body is a decodable object. -/
theorem claim_c9_unconditional_slicing (s : PyStr) :
    (startswith fence_json_tag (pystrip s) = true →
      LlamaExpense.safe_json_loads (.pstr s) =
        json_loads (pystrip (take_all_but_last 3 ((pystrip s).drop 7)))) ∧
    (startswith fence_json_tag (pystrip s) = false →
      startswith fence_plain (pystrip s) = true →
      LlamaExpense.safe_json_loads (.pstr s) =
        json_loads (pystrip (take_all_but_last 3 ((pystrip s).drop 3)))) ∧
    (LlamaExpense.safe_json_loads (.pstr "```json\n\x7b\"a\": \"b\"\x7d".toList) = none ∧
      LlamaExpense.safe_json_loads (.pstr "\x7b\"a\": \"b\"\x7d".toList) =
        some (.obj [("a".toList, .str "b".toList)])) := by
  refine ⟨fun h1 => ?_, fun h1 h2 => ?_, rfl, rfl⟩
  · show json_loads (fence_strip s) = _
    rw [fence_strip, if_pos h1]
  · show json_loads (fence_strip s) = _
    rw [fence_strip, h1]
    simp only [Bool.false_eq_true, if_false]
    rw [if_pos h2]

theorem claim_c9_witness :
    startswith fence_json_tag (pystrip "```json\n\x7b\"a\": \"b\"\x7d".toList) = true ∧
      LlamaExpense.safe_json_loads (.pstr "```json\n\x7b\"a\": \"b\"\x7d".toList) =
        json_loads (pystrip (take_all_but_last 3
          ((pystrip "```json\n\x7b\"a\": \"b\"\x7d".toList).drop 7))) :=
  ⟨rfl, (claim_c9_unconditional_slicing _).1 rfl⟩

/-- C1: a raw string response that is not decodable as JSON after
fence-stripping makes the continue-on-error classifier return the error
category marker, `is_deductible = false`, and the parsing-failure
justification; and under the continue-on-error policy (the loop of
`llama_expense.py`, whose classifier is total, and the per-row `try`/`except`
loop of `llama_expense-dev.py`) the batch still processes every row, the bad
row getting the error marker and every subsequent row its own result. -/
theorem claim_c1_undecodable_response (s : PyStr) (row : Row) (pre post : List Row)
    (h : LlamaExpense.safe_json_loads (.pstr s) = none)
    (hrow : row.product_name.getD (.str nA) ≠ .str nA) :
    (LlamaExpense.process_single_expense (fun _ => .ok (.pstr s)) row).1 =
        (.str ERROR_CATEGORY, .bool false, .str "LLM response parsing error".toList) ∧
      (LlamaExpense.process_expenses (fun _ => .ok (.pstr s)) (pre ++ row :: post)).categories =
        pre.map
            (fun r => ((LlamaExpense.process_single_expense (fun _ => .ok (.pstr s)) r).1).1) ++
          .str ERROR_CATEGORY ::
            post.map
              (fun r => ((LlamaExpense.process_single_expense (fun _ => .ok (.pstr s)) r).1).1) ∧
      (LlamaExpense.process_expenses (fun _ => .ok (.pstr s))
          (pre ++ row :: post)).categories.length = (pre ++ row :: post).length ∧
      (LlamaExpenseDev.process_expenses (fun _ => .ok (.pstr s))
          (pre ++ row :: post)).categories.length = (pre ++ row :: post).length := by
  have hb : (row.product_name.getD (.str nA) == Cell.str nA) = false := by
    simp [hrow]
  have h1 : (LlamaExpense.process_single_expense (fun _ => .ok (.pstr s)) row).1 =
      (.str ERROR_CATEGORY, .bool false, .str "LLM response parsing error".toList) := by
    simp [LlamaExpense.process_single_expense, hb, h, DEFAULT_DEDUCTIBLE]
  refine ⟨h1, ?_, ?_, ?_⟩
  · rw [main_process_expenses_eq]
    simp [h1]
  · rw [main_process_expenses_eq]
    simp
  · rw [dev_process_expenses_eq]
    simp

theorem claim_c1_witness :
    LlamaExpense.safe_json_loads (.pstr "not json".toList) = none ∧
      (Row.mk (some (.str "Pen".toList)) none none
          (some (.str "2024-01-15".toList))).product_name.getD (.str nA) ≠ .str nA ∧
      (LlamaExpense.process_single_expense (fun _ => .ok (.pstr "not json".toList))
          ⟨some (.str "Pen".toList), none, none, some (.str "2024-01-15".toList)⟩).1 =
        (.str ERROR_CATEGORY, .bool false, .str "LLM response parsing error".toList) ∧
      (LlamaExpenseDev.process_expenses (fun _ => .ok (.pstr "not json".toList))
          ([] ++ ⟨some (.str "Pen".toList), none, none, some (.str "2024-01-15".toList)⟩ ::
            [⟨some (.str "Desk".toList), none, none, some (.str "2024-01-10".toList)⟩]
            )).categories.length =
        ([] ++ (⟨some (.str "Pen".toList), none, none,
            some (.str "2024-01-15".toList)⟩ : Row) ::
          [⟨some (.str "Desk".toList), none, none,
            some (.str "2024-01-10".toList)⟩]).length :=
  ⟨rfl, by decide,
    (claim_c1_undecodable_response "not json".toList
      ⟨some (.str "Pen".toList), none, none, some (.str "2024-01-15".toList)⟩ []
      [⟨some (.str "Desk".toList), none, none, some (.str "2024-01-10".toList)⟩]
      rfl (by decide)).1,
    (claim_c1_undecodable_response "not json".toList
      ⟨some (.str "Pen".toList), none, none, some (.str "2024-01-15".toList)⟩ []
      [⟨some (.str "Desk".toList), none, none, some (.str "2024-01-10".toList)⟩]
      rfl (by decide)).2.2.2⟩

/-- C3 as stated is false on the dev variant: on a row whose product name is
the placeholder but whose order date is the (unparseable) default, the dev
classifier raises out of `parse_date` — which runs before the skip check —
instead of returning the skip triple (the service is still never invoked). -/
theorem claim_c3_counterexample :
    Except.isOk (LlamaExpenseDev.process_single_expense (fun _ => .ok (.pjson (.obj [])))
        ⟨some (.str nA), none, none, some (.str "not-a-date".toList)⟩).1 = false ∧
      (LlamaExpenseDev.process_single_expense (fun _ => .ok (.pjson (.obj [])))
        ⟨some (.str nA), none, none, some (.str "not-a-date".toList)⟩).2 = none :=
  ⟨rfl, rfl⟩

/-- C3 (amended): in the continue-on-error variant, every row whose looked-up
product name equals the placeholder yields exactly
`(default category, false, "Missing product information")` with no service
call; in the dev variant the same holds provided the row's order date parses
(date parsing runs before the skip check and its failure propagates instead);
and in every case the inference service is never invoked for such a row. -/
theorem claim_c3_missing_product_skip (chain : Chain) (row : Row)
    (h : row.product_name.getD (.str nA) = .str nA) :
    LlamaExpense.process_single_expense chain row =
        ((.str DEFAULT_CATEGORY, .bool false, .str "Missing product information".toList),
          none) ∧
      (∀ d, LlamaExpenseDev.parse_date (row.order_date.getD (.str nA)) = .ok d →
        LlamaExpenseDev.process_single_expense chain row =
          (.ok (.str DEFAULT_CATEGORY, .bool false,
            .str "Missing product information".toList), none)) ∧
      (LlamaExpenseDev.process_single_expense chain row).2 = none :=
  ⟨main_skip chain row h, fun _ hd => dev_skip chain row h hd,
    (dev_invoked_none_iff chain row).mpr (Or.inl h)⟩

theorem claim_c3_witness :
    (Row.mk none none none (some (.timestamp 2024 1 15))).product_name.getD (.str nA) =
        .str nA ∧
      LlamaExpense.process_single_expense (fun _ => .ok (.pjson (.obj [])))
          ⟨none, none, none, some (.timestamp 2024 1 15)⟩ =
        ((.str DEFAULT_CATEGORY, .bool false, .str "Missing product information".toList),
          none) ∧
      LlamaExpenseDev.process_single_expense (fun _ => .ok (.pjson (.obj [])))
          ⟨none, none, none, some (.timestamp 2024 1 15)⟩ =
        (.ok (.str DEFAULT_CATEGORY, .bool false,
          .str "Missing product information".toList), none) :=
  ⟨by decide, (claim_c3_missing_product_skip _ _ (by decide)).1,
    (claim_c3_missing_product_skip _ _ (by decide)).2.1 _ rfl⟩

/-- C5 as stated is false on the dev variant: with an inference service that
raises, the dev classifier propagates the exception to its caller instead of
returning a classification triple. -/
theorem claim_c5_counterexample :
    Except.isOk (LlamaExpenseDev.process_single_expense
        (fun _ => .error "connection refused".toList)
        ⟨some (.str "Pen".toList), none, none, some (.str "2024-01-15".toList)⟩).1 = false :=
  rfl

/-- C5 (amended): the continue-on-error classifier is the per-record
failure-isolation boundary — an inference-service failure is caught and
converted to the error triple; the dev classifier instead propagates the
failure, and there the batch loop's per-row handler is the boundary,
converting it so that the row still yields one triple. -/
theorem claim_c5_failure_isolation (chain : Chain) (row : Row) (e : PyStr)
    (hrow : row.product_name.getD (.str nA) ≠ .str nA)
    (hchain : ∀ inp, chain inp = .error e) :
    (LlamaExpense.process_single_expense chain row).1 =
        (.str ERROR_CATEGORY, .bool false, .str ("Processing error: ".toList ++ e)) ∧
      ∀ d, LlamaExpenseDev.parse_date (row.order_date.getD (.str nA)) = .ok d →
        ((LlamaExpenseDev.process_single_expense chain row).1 = .error e ∧
          LlamaExpenseDev.row_result chain row =
            (.str ERROR_CATEGORY, .bool false,
              .str ("Error during processing: ".toList ++ e))) := by
  refine ⟨main_chain_error chain row e hrow hchain, fun d hd => ?_⟩
  have h1 := dev_chain_error chain row e hrow hd hchain
  refine ⟨h1, ?_⟩
  rw [LlamaExpenseDev.row_result, h1]
  exact rfl

theorem claim_c5_witness :
    (Row.mk (some (.str "Pen".toList)) none none
        (some (.str "2024-01-15".toList))).product_name.getD (.str nA) ≠ .str nA ∧
      (∀ inp : PromptInput,
        (fun _ : PromptInput => (.error "boom".toList : Except PyStr RawResponse)) inp =
          .error "boom".toList) ∧
      (LlamaExpense.process_single_expense (fun _ => .error "boom".toList)
          ⟨some (.str "Pen".toList), none, none, some (.str "2024-01-15".toList)⟩).1 =
        (.str ERROR_CATEGORY, .bool false,
          .str ("Processing error: ".toList ++ "boom".toList)) ∧
      LlamaExpenseDev.row_result (fun _ => .error "boom".toList)
          ⟨some (.str "Pen".toList), none, none, some (.str "2024-01-15".toList)⟩ =
        (.str ERROR_CATEGORY, .bool false,
          .str ("Error during processing: ".toList ++ "boom".toList)) :=
  ⟨by decide, fun _ => rfl,
    (claim_c5_failure_isolation (fun _ => .error "boom".toList)
      ⟨some (.str "Pen".toList), none, none, some (.str "2024-01-15".toList)⟩
      "boom".toList (by decide) (fun _ => rfl)).1,
    ((claim_c5_failure_isolation (fun _ => .error "boom".toList)
      ⟨some (.str "Pen".toList), none, none, some (.str "2024-01-15".toList)⟩
      "boom".toList (by decide) (fun _ => rfl)).2 "2024-01-15".toList rfl).2⟩

/-- C6: evaluation at the failing configuration.  With an inference service
that fails on the first row, the dev batch — the variant whose docstring
declares halt-on-first-error — does not abort: the first row is given the
error marker, the second row is still classified, and the full two-row output
is produced and written.  No shipped configuration halts the batch. -/
theorem claim_c6_no_halt_eval :
    LlamaExpenseDev.process_expenses
        (fun inp => if inp.product_name == Cell.str "A".toList
          then .error "connection refused".toList
          else .ok (.pjson (.obj [("category".toList, .str "X".toList)])))
        [⟨some (.str "A".toList), none, none, some (.timestamp 2024 1 15)⟩,
          ⟨some (.str "B".toList), none, none, some (.timestamp 2024 1 16)⟩] =
      ⟨[.str ERROR_CATEGORY, .str "X".toList],
        [.bool false, .bool false],
        [.str ("Error during processing: ".toList ++ "connection refused".toList),
          .str DEFAULT_JUSTIFICATION]⟩ :=
  rfl

/-- C7: evaluation at the failing input.  The empty JSON object — a valid
object missing all three keys, including `is_deductible` — is treated by the
continue-on-error variant's `if result:` truthiness check as a parse failure,
yielding the error triple instead of the defaulted one; the dev variant (and
the extractor itself, which decodes `"{}"` successfully) applies the
defaulting the claim describes. -/
theorem claim_c7_empty_object_eval :
    (LlamaExpense.process_single_expense (fun _ => .ok (.pstr "\x7b\x7d".toList))
          ⟨some (.str "Pen".toList), none, none, some (.str "2024-01-15".toList)⟩).1 =
        (.str ERROR_CATEGORY, .bool false, .str "LLM response parsing error".toList) ∧
      (LlamaExpenseDev.process_single_expense (fun _ => .ok (.pstr "\x7b\x7d".toList))
          ⟨some (.str "Pen".toList), none, none, some (.str "2024-01-15".toList)⟩).1 =
        .ok (.str DEFAULT_CATEGORY, .bool false, .str DEFAULT_JUSTIFICATION) ∧
      LlamaExpense.safe_json_loads (.pstr "\x7b\x7d".toList) = some (.obj []) :=
  ⟨rfl, rfl, rfl⟩

/-- C8: a `pd.Timestamp` order date reaches the prompt builder as its
canonical `YYYY-MM-DD` rendering in both variants; on an unstructured value
the non-halting variant attempts parsing and falls back to the verbatim
string, while the halting variant propagates the failure; and whenever the
classifier of either variant invokes the service on a timestamp-dated row,
the invoked input carries the canonical rendering. -/
theorem claim_c8_date_normalization :
    (∀ y m d, LlamaExpense.parse_date (.timestamp y m d) = fmt_date y m d ∧
      LlamaExpenseDev.parse_date (.timestamp y m d) = .ok (fmt_date y m d)) ∧
    (∀ c, to_datetime_strftime c = none →
      LlamaExpense.parse_date c = py_str_cell c ∧
        Except.isOk (LlamaExpenseDev.parse_date c) = false) ∧
    (∀ c r, to_datetime_strftime c = some r →
      LlamaExpense.parse_date c = r ∧ LlamaExpenseDev.parse_date c = .ok r) ∧
    (∀ (chain : Chain) (row : Row) (y m d : Nat) (inp : PromptInput),
      row.order_date = some (.timestamp y m d) →
      (LlamaExpense.process_single_expense chain row).2 = some inp →
      inp.order_date = fmt_date y m d) ∧
    (∀ (chain : Chain) (row : Row) (y m d : Nat) (inp : PromptInput),
      row.order_date = some (.timestamp y m d) →
      (LlamaExpenseDev.process_single_expense chain row).2 = some inp →
      inp.order_date = fmt_date y m d) := by
  refine ⟨fun y m d => ⟨rfl, rfl⟩, fun c hc => ?_, fun c r hc => ?_,
    fun chain row y m d inp hdate hinp => ?_, fun chain row y m d inp hdate hinp => ?_⟩
  · refine ⟨?_, ?_⟩
    · cases c <;> simp_all [to_datetime_strftime, LlamaExpense.parse_date]
    · have hdev : ∃ e, LlamaExpenseDev.parse_date c = .error e := by
        cases c <;> simp_all [to_datetime_strftime, LlamaExpenseDev.parse_date]
      obtain ⟨e, he⟩ := hdev
      rw [he]
      rfl
  · cases c with
    | timestamp y m d =>
      have h1 : fmt_date y m d = r := by simpa [to_datetime_strftime] using hc
      exact ⟨h1, by rw [← h1]; rfl⟩
    | str s => exact ⟨by simp only [LlamaExpense.parse_date, hc],
        by simp only [LlamaExpenseDev.parse_date, hc]⟩
    | nan => simp [to_datetime_strftime] at hc
    | num n => simp [to_datetime_strftime] at hc
  · have h1 := main_invoked_input chain row hinp
    rw [h1, hdate]
    rfl
  · obtain ⟨d', hd, h1⟩ := dev_invoked_input chain row hinp
    rw [hdate] at hd
    have : d' = fmt_date y m d := by
      simpa [LlamaExpenseDev.parse_date] using hd.symm
    rw [h1, this]

theorem claim_c8_witness :
    LlamaExpense.parse_date (.timestamp 2024 1 15) = fmt_date 2024 1 15 ∧
      fmt_date 2024 1 15 = "2024-01-15".toList ∧
      to_datetime_strftime (.str "not-a-date".toList) = none ∧
      LlamaExpense.parse_date (.str "not-a-date".toList) =
        py_str_cell (.str "not-a-date".toList) ∧
      Except.isOk (LlamaExpenseDev.parse_date (.str "not-a-date".toList)) = false ∧
      (Row.mk (some (.str "Pen".toList)) none none
          (some (.timestamp 2024 1 15))).order_date = some (.timestamp 2024 1 15) ∧
      (LlamaExpense.process_single_expense (fun _ => .ok (.pjson (.obj [])))
          ⟨some (.str "Pen".toList), none, none, some (.timestamp 2024 1 15)⟩).2 =
        some ⟨.str "Pen".toList, .num 0, .num 1, "2024-01-15".toList⟩ ∧
      PromptInput.order_date ⟨.str "Pen".toList, .num 0, .num 1, "2024-01-15".toList⟩ =
        fmt_date 2024 1 15 :=
  ⟨(claim_c8_date_normalization.1 2024 1 15).1, rfl, rfl,
    (claim_c8_date_normalization.2.1 (.str "not-a-date".toList) rfl).1,
    (claim_c8_date_normalization.2.1 (.str "not-a-date".toList) rfl).2, rfl, rfl,
    claim_c8_date_normalization.2.2.2.1 (fun _ => .ok (.pjson (.obj [])))
      ⟨some (.str "Pen".toList), none, none, some (.timestamp 2024 1 15)⟩ 2024 1 15
      ⟨.str "Pen".toList, .num 0, .num 1, "2024-01-15".toList⟩ rfl rfl⟩

/-- C10 as stated is false on the dev variant: a row whose product name is
present but NaN is, per the claim, "not skipped and sent to the inference
service"; with the order date absent (so that its default `"N/A"` fails to
parse) the dev classifier raises first and the service is never invoked. -/
theorem claim_c10_counterexample :
    (LlamaExpenseDev.process_single_expense (fun _ => .ok (.pjson (.obj [])))
        ⟨some Cell.nan, none, none, none⟩).2 = none ∧
      Except.isOk (LlamaExpenseDev.process_single_expense (fun _ => .ok (.pjson (.obj [])))
        ⟨some Cell.nan, none, none, none⟩).1 = false :=
  ⟨rfl, rfl⟩

/-- C10 (amended): the missing-data placeholder is the literal `"N/A"`, which
is also the `row.get` default when the Product Name column is absent (such a
row yields the skip triple); the continue-on-error classifier skips exactly
when the looked-up value equals `"N/A"`, and the dev classifier exactly when
that holds or its date parsing fails first; a row whose product name is
present but the empty string or NaN is never skipped, and in the
continue-on-error variant the inference service is always invoked for it. -/
theorem claim_c10_placeholder_semantics :
    nA = "N/A".toList ∧
    (∀ (chain : Chain) (row : Row), row.product_name = none →
      LlamaExpense.process_single_expense chain row =
        ((.str DEFAULT_CATEGORY, .bool false, .str "Missing product information".toList),
          none)) ∧
    (∀ (chain : Chain) (row : Row),
      (LlamaExpense.process_single_expense chain row).2 = none ↔
        row.product_name.getD (.str nA) = .str nA) ∧
    (∀ (chain : Chain) (row : Row),
      (LlamaExpenseDev.process_single_expense chain row).2 = none ↔
        (row.product_name.getD (.str nA) = .str nA ∨
          Except.isOk (LlamaExpenseDev.parse_date (row.order_date.getD (.str nA))) =
            false)) ∧
    (∀ (chain : Chain) (row : Row),
      row.product_name = some (.str []) ∨ row.product_name = some .nan →
      (LlamaExpense.process_single_expense chain row).2 ≠ none) := by
  refine ⟨rfl, fun chain row h => main_skip chain row (by rw [h]; rfl),
    fun chain row => main_invoked_none_iff chain row,
    fun chain row => dev_invoked_none_iff chain row, fun chain row h hnone => ?_⟩
  have h1 := (main_invoked_none_iff chain row).mp hnone
  rcases h with h | h <;> rw [h] at h1 <;> simp [nA] at h1

theorem claim_c10_witness :
    (Row.mk none none none (some (.timestamp 2024 1 15))).product_name = none ∧
      LlamaExpense.process_single_expense (fun _ => .ok (.pjson (.obj [])))
          ⟨none, none, none, some (.timestamp 2024 1 15)⟩ =
        ((.str DEFAULT_CATEGORY, .bool false, .str "Missing product information".toList),
          none) ∧
      ((Row.mk (some (.str [])) none none
          (some (.timestamp 2024 1 15))).product_name = some (.str []) ∨
        (Row.mk (some (.str [])) none none
          (some (.timestamp 2024 1 15))).product_name = some .nan) ∧
      (LlamaExpense.process_single_expense (fun _ => .ok (.pjson (.obj [])))
          ⟨some (.str []), none, none, some (.timestamp 2024 1 15)⟩).2 ≠ none :=
  ⟨rfl,
    claim_c10_placeholder_semantics.2.1 (fun _ => .ok (.pjson (.obj [])))
      ⟨none, none, none, some (.timestamp 2024 1 15)⟩ rfl,
    Or.inl rfl,
    claim_c10_placeholder_semantics.2.2.2.2 (fun _ => .ok (.pjson (.obj [])))
      ⟨some (.str []), none, none, some (.timestamp 2024 1 15)⟩ (Or.inl rfl)⟩

